import Mathlib

/-!
Verification of the trigger-action runtime of the `triggered` repository.

The Python sources are shallowly embedded:
  * Python `str` values are modelled as `List Nat` of Unicode code points
    (`PyStr`), so that the model can speak about the exact characters the
    code manipulates, including code points beyond the ASCII range.
  * `json.loads` / the relevant shape of `json.dumps` are modelled after the
    CPython `json` package semantics that `triggered/triggers/ai.py` relies
    on: tiered value scanning, `\uXXXX` escapes with surrogate-pair
    combination, last-wins duplicate object keys, `NaN`/`Infinity` literals,
    and number tokens kept as their lexical text (no floating point is
    modelled; no claim inspects numeric values).
  * The two `re` patterns of `extract_json_from_response` are modelled by
    direct leftmost-match scanners with the same backtracking behaviour.
  * Exceptions are modelled with `Except`; a raised exception carries the
    text of `str(e)`.
-/

/-- A Python `str`: a finite sequence of Unicode code points. -/
abbrev PyStr : Type := List Nat

/-- Code points of a Lean string literal, used to write `PyStr` constants. -/
def pyn (s : String) : PyStr := s.data.map Char.toNat

/-- JSON whitespace, the set CPython's scanner and `_w` regex skip:
space, tab, newline, carriage return. -/
def isJsonWs (c : Nat) : Bool := c = 0x20 || c = 0x09 || c = 0x0A || c = 0x0D

/-- Drop leading JSON whitespace. -/
def jsonSkipWs : List Nat → List Nat
  | [] => []
  | c :: rest => if isJsonWs c then jsonSkipWs rest else c :: rest

/-- Value of one hexadecimal digit character, as `int(c, 16)` accepts it. -/
def hexDigitVal (c : Nat) : Option Nat :=
  if 0x30 ≤ c ∧ c ≤ 0x39 then some (c - 0x30)
  else if 0x61 ≤ c ∧ c ≤ 0x66 then some (c - 0x61 + 10)
  else if 0x41 ≤ c ∧ c ≤ 0x46 then some (c - 0x41 + 10)
  else none

/-- Value of a 4-digit hex escape body, as `_decode_uXXXX` reads it. -/
def hex4val (a b c d : Nat) : Option Nat :=
  match hexDigitVal a, hexDigitVal b, hexDigitVal c, hexDigitVal d with
  | some va, some vb, some vc, some vd => some (((va * 16 + vb) * 16 + vc) * 16 + vd)
  | _, _, _, _ => none

/-- The short (single-character) escapes of `py_scanstring`'s `BACKSLASH`
table, keyed by the character after the backslash. -/
def shortEsc (e : Nat) : Option Nat :=
  if e = 0x22 then some 0x22
  else if e = 0x5C then some 0x5C
  else if e = 0x2F then some 0x2F
  else if e = 0x62 then some 0x08
  else if e = 0x66 then some 0x0C
  else if e = 0x6E then some 0x0A
  else if e = 0x72 then some 0x0D
  else if e = 0x74 then some 0x09
  else none

/-- After a high surrogate `\uXXXX` escape, `py_scanstring` looks ahead for a
`\u`-escaped low surrogate; this returns its value when the next six input
characters form one. -/
def lowSurrEsc (s : List Nat) : Option Nat :=
  match s with
  | b1 :: u1 :: g1 :: g2 :: g3 :: g4 :: _ =>
    if b1 = 0x5C ∧ u1 = 0x75 then
      match hex4val g1 g2 g3 g4 with
      | some m => if 0xDC00 ≤ m ∧ m ≤ 0xDFFF then some m else none
      | none => none
    else none
  | _ => none

/-- The body of a JSON string after its opening quote, following CPython's
`py_scanstring`: `"` ends the string; `\` introduces a short escape or a
`\uXXXX` escape; a high surrogate immediately followed by a `\u`-escaped low
surrogate is combined into one code point, otherwise lone surrogates are kept
as code points; raw control characters (strict mode) and invalid escapes fail.
Returns the decoded code points and the rest of the input, `none` meaning that
`json.loads` raises `JSONDecodeError`. Recursion is structural on a fuel
counter; every step consumes at least one input character, so the fuel chosen
by `scanString` below never runs out. -/
def scanStringBody : Nat → List Nat → Option (List Nat × List Nat)
  | 0, _ => none
  | _ + 1, [] => none
  | f + 1, c :: rest =>
    if c = 0x22 then some ([], rest)
    else if c = 0x5C then
      match rest with
      | [] => none
      | e :: rest2 =>
        if e = 0x75 then
          match rest2 with
          | h1 :: h2 :: h3 :: h4 :: rest3 =>
            match hex4val h1 h2 h3 h4 with
            | none => none
            | some n =>
              if 0xD800 ≤ n ∧ n ≤ 0xDBFF then
                match lowSurrEsc rest3 with
                | some m =>
                  (scanStringBody f (rest3.drop 6)).map
                    (fun p => ((0x10000 + (n - 0xD800) * 0x400 + (m - 0xDC00)) :: p.1, p.2))
                | none => (scanStringBody f rest3).map (fun p => (n :: p.1, p.2))
              else (scanStringBody f rest3).map (fun p => (n :: p.1, p.2))
          | _ => none
        else
          match shortEsc e with
          | some d => (scanStringBody f rest2).map (fun p => (d :: p.1, p.2))
          | none => none
    else if c < 0x20 then none
    else (scanStringBody f rest).map (fun p => (c :: p.1, p.2))

/-- A JSON string body scan with always-sufficient fuel. -/
def scanString (s : List Nat) : Option (List Nat × List Nat) :=
  scanStringBody (s.length + 1) s

/-- Longest run of decimal digit characters. -/
def takeDigitsL : List Nat → List Nat × List Nat
  | [] => ([], [])
  | c :: rest =>
    if 0x30 ≤ c ∧ c ≤ 0x39 then
      match takeDigitsL rest with
      | (ds, r) => (c :: ds, r)
    else ([], c :: rest)

/-- The integer part `(?:0|[1-9]\d*)` of CPython's `NUMBER_RE`. -/
def numIntPart : List Nat → Option (List Nat × List Nat)
  | [] => none
  | c :: rest =>
    if c = 0x30 then some ([0x30], rest)
    else if 0x31 ≤ c ∧ c ≤ 0x39 then
      match takeDigitsL rest with
      | (ds, r) => some (c :: ds, r)
    else none

/-- The optional fraction group `(\.\d+)?` of `NUMBER_RE`. -/
def numFracPart (s : List Nat) : List Nat × List Nat :=
  match s with
  | c :: rest =>
    if c = 0x2E then
      match takeDigitsL rest with
      | ([], _) => ([], s)
      | (ds, r) => (c :: ds, r)
    else ([], s)
  | [] => ([], s)

/-- The optional exponent group `([eE][-+]?\d+)?` of `NUMBER_RE`. -/
def numExpPart (s : List Nat) : List Nat × List Nat :=
  match s with
  | c :: rest =>
    if c = 0x65 ∨ c = 0x45 then
      match rest with
      | d :: rest2 =>
        if d = 0x2B ∨ d = 0x2D then
          match takeDigitsL rest2 with
          | ([], _) => ([], s)
          | (ds, r) => (c :: d :: ds, r)
        else
          match takeDigitsL rest with
          | ([], _) => ([], s)
          | (ds, r) => (c :: ds, r)
      | [] => ([], s)
    else ([], s)
  | [] => ([], s)

/-- A match of CPython's `NUMBER_RE` at the start of the input, kept as its
lexical token. The numeric value (an `int` or `float` in Python) is never
inspected by the code under verification, so the token is not evaluated. -/
def numTok (s : List Nat) : Option (List Nat × List Nat) :=
  match s with
  | c :: rest =>
    if c = 0x2D then
      match numIntPart rest with
      | none => none
      | some (ip, s2) =>
        match numFracPart s2 with
        | (fp, s3) =>
          match numExpPart s3 with
          | (ep, s4) => some (0x2D :: (ip ++ fp ++ ep), s4)
    else
      match numIntPart s with
      | none => none
      | some (ip, s2) =>
        match numFracPart s2 with
        | (fp, s3) =>
          match numExpPart s3 with
          | (ep, s4) => some (ip ++ fp ++ ep, s4)
  | [] => none

/-- A Python value as produced by `json.loads`: the JSON data model, with
numbers kept as their lexical tokens and object members in Python `dict`
insertion order with unique keys. -/
inductive JValue where
  | null
  | bool (b : Bool)
  | num (tok : List Nat)
  | str (s : List Nat)
  | arr (elems : List JValue)
  | obj (members : List (PyStr × JValue))

/-- Python assignment `d[k] = v` on an insertion-ordered `dict`: an existing key keeps its
position and gets the new value (last wins), a new key is appended. -/
def dictInsert (m : List (PyStr × JValue)) (k : PyStr) (v : JValue) :
    List (PyStr × JValue) :=
  match m with
  | [] => [(k, v)]
  | (k0, v0) :: rest =>
    if k0 = k then (k0, v) :: rest else (k0, v0) :: dictInsert rest k v

/-- Python `m.get(k)` on the member list of a parsed object. -/
def dictFind (m : List (PyStr × JValue)) (k : PyStr) : Option JValue :=
  match m with
  | [] => none
  | (k0, v0) :: rest => if k0 = k then some v0 else dictFind rest k

/-- Does the input start with the given literal? -/
def leadsWith : List Nat → List Nat → Bool
  | [], _ => true
  | _ :: _, [] => false
  | a :: as_, b :: bs => a = b && leadsWith as_ bs

/-- What the scanner is currently reading: a value, the members of an object
after `{` (with the members built so far), or the elements of an array
after `[`. -/
inductive ScanMode where
  | v
  | members (acc : List (PyStr × JValue))
  | elems (acc : List JValue)

/-- CPython's `_scan_once` / `JSONObject` / `JSONArray`, with explicit fuel
(`json.loads` has no such bound; the entry point below supplies fuel larger
than any possible nesting of its input, so the bound is never the reason a
parse fails). Dispatch order and whitespace handling follow the CPython
scanner: strings, objects, arrays, `null`/`true`/`false`, `NUMBER_RE`
matches, then the `NaN`/`Infinity`/`-Infinity` constants. -/
def scanJ : Nat → ScanMode → List Nat → Option (JValue × List Nat)
  | 0, _, _ => none
  | f + 1, .v, s0 =>
    match jsonSkipWs s0 with
    | [] => none
    | c :: rest =>
      if c = 0x22 then (scanString rest).map (fun p => (JValue.str p.1, p.2))
      else if c = 0x7B then
        match jsonSkipWs rest with
        | c2 :: rest2 =>
          if c2 = 0x7D then some (JValue.obj [], rest2)
          else scanJ f (.members []) (c2 :: rest2)
        | [] => none
      else if c = 0x5B then
        match jsonSkipWs rest with
        | c2 :: rest2 =>
          if c2 = 0x5D then some (JValue.arr [], rest2)
          else scanJ f (.elems []) (c2 :: rest2)
        | [] => none
      else if leadsWith (pyn "null") (c :: rest) then some (JValue.null, rest.drop 3)
      else if leadsWith (pyn "true") (c :: rest) then some (JValue.bool true, rest.drop 3)
      else if leadsWith (pyn "false") (c :: rest) then some (JValue.bool false, rest.drop 4)
      else
        match numTok (c :: rest) with
        | some (tok, r) => some (JValue.num tok, r)
        | none =>
          if leadsWith (pyn "NaN") (c :: rest) then some (JValue.num (pyn "NaN"), rest.drop 2)
          else if leadsWith (pyn "Infinity") (c :: rest) then
            some (JValue.num (pyn "Infinity"), rest.drop 7)
          else if leadsWith (pyn "-Infinity") (c :: rest) then
            some (JValue.num (pyn "-Infinity"), rest.drop 8)
          else none
  | f + 1, .members acc, s0 =>
    match jsonSkipWs s0 with
    | c :: rest =>
      if c = 0x22 then
        match scanString rest with
        | none => none
        | some (k, rest1) =>
          match jsonSkipWs rest1 with
          | c2 :: rest2 =>
            if c2 = 0x3A then
              match scanJ f .v rest2 with
              | none => none
              | some (v, rest3) =>
                match jsonSkipWs rest3 with
                | c3 :: rest4 =>
                  if c3 = 0x2C then scanJ f (.members (dictInsert acc k v)) rest4
                  else if c3 = 0x7D then some (JValue.obj (dictInsert acc k v), rest4)
                  else none
                | [] => none
            else none
          | [] => none
      else none
    | [] => none
  | f + 1, .elems acc, s0 =>
    match scanJ f .v s0 with
    | none => none
    | some (v, r) =>
      match jsonSkipWs r with
      | c :: rest =>
        if c = 0x2C then scanJ f (.elems (acc ++ [v])) rest
        else if c = 0x5D then some (JValue.arr (acc ++ [v]), rest)
        else none
      | [] => none

/-- Entry point, matching `json.loads`: skip leading whitespace, scan one
value, then require only whitespace to remain (otherwise `Extra data`). -/
def jsonLoads (s : PyStr) : Option JValue :=
  match scanJ (List.length s + 1) .v s with
  | some (v, rest) => if jsonSkipWs rest = [] then some v else none
  | none => none

/-- Python's Unicode `\s` character class (used by `re` in the patterns and
the `re.sub` whitespace normalisation of `extract_json_from_response`). -/
def isPyRegexWs (c : Nat) : Bool :=
  (0x09 ≤ c && c ≤ 0x0D) || c = 0x1C || c = 0x1D || c = 0x1E || c = 0x1F ||
  c = 0x20 || c = 0x85 || c = 0xA0 || c = 0x1680 ||
  (0x2000 ≤ c && c ≤ 0x200A) || c = 0x2028 || c = 0x2029 || c = 0x202F ||
  c = 0x205F || c = 0x3000

/-- Drop a maximal run of `\s` characters (greedy `\s*`; backtracking to a
shorter run can never help, since the next pattern element is a literal that
is not a whitespace character). -/
def pyRegexSkipWs : List Nat → List Nat
  | [] => []
  | c :: rest => if isPyRegexWs c then pyRegexSkipWs rest else c :: rest

/-- Does `\s*` followed by a literal three-backtick fence match a prefix of
the input? This is the closing part of the fenced-block pattern after the
captured group, with the lazy/greedy backtracking collapsed: some run of
whitespace characters followed by the fence. -/
def wsThenFence : List Nat → Bool
  | [] => false
  | c :: rest => leadsWith (pyn "```") (c :: rest) || (isPyRegexWs c && wsThenFence rest)

/-- The lazy `[\s\S]*?\}` scan inside the fenced-block pattern: candidate
closing braces are tried left to right, and the first one whose remainder
matches `\s*` + fence ends the captured group. Returns group 1. -/
def mdScanClose (acc : List Nat) : List Nat → Option PyStr
  | [] => none
  | c :: rest =>
    if c = 0x7D ∧ wsThenFence rest then some (0x7B :: (acc.reverse ++ [0x7D]))
    else mdScanClose (c :: acc) rest

/-- One anchored attempt of the fenced-block pattern at the current position:
a three-backtick fence, an optional literal `json` (tried greedily; the
branch without it cannot continue, since `json` does not start with `{` or
whitespace), greedy `\s*`, then the captured brace group. -/
def mdTryAt (s : List Nat) : Option PyStr :=
  if leadsWith (pyn "```") s then
    match pyRegexSkipWs (if leadsWith (pyn "json") (s.drop 3) then s.drop 7 else s.drop 3) with
    | c :: body => if c = 0x7B then mdScanClose [] body else none
    | [] => none
  else none

/-- The leftmost match of the fenced-block pattern of
`extract_json_from_response` (its captured group 1), as found by
`re.search`: attempts anchored at each position, left to right. -/
def reMarkdownSearch : List Nat → Option PyStr
  | [] => none
  | c :: rest =>
    match mdTryAt (c :: rest) with
    | some g => some g
    | none => reMarkdownSearch rest

/-- The scan for the closing brace of the fallback pattern: lazy, so the
first closing brace after the opening one ends the match. -/
def fbScanClose (acc : List Nat) : List Nat → Option PyStr
  | [] => none
  | c :: rest =>
    if c = 0x7D then some (0x7B :: (acc.reverse ++ [0x7D]))
    else fbScanClose (c :: acc) rest

/-- The leftmost match (group 0) of the groupless fallback pattern: the
first opening brace that has some closing brace after it, matched up to the
first such closing brace. -/
def reFallbackSearch : List Nat → Option PyStr
  | [] => none
  | c :: rest =>
    if c = 0x7B then
      match fbScanClose [] rest with
      | some g => some g
      | none => reFallbackSearch rest
    else reFallbackSearch rest

/-- Python's containment test for a three-backtick fence anywhere in the
response. -/
def containsFence : List Nat → Bool
  | [] => false
  | c :: rest => leadsWith (pyn "```") (c :: rest) || containsFence rest

/-- The whitespace normalisation applied to the extracted JSON text: each
maximal run of `\s` characters is replaced by one space (the flag records
whether the previous character was part of such a run). -/
def reSubWsAux (prevWs : Bool) : List Nat → List Nat
  | [] => []
  | c :: rest =>
    if isPyRegexWs c then
      if prevWs then reSubWsAux true rest else 0x20 :: reSubWsAux true rest
    else c :: reSubWsAux false rest

/-- The `re.sub` whitespace normalisation applied before the tier-2/tier-3
parse attempt. -/
def reSubWs (s : List Nat) : List Nat := reSubWsAux false s

/-- The function `extract_json_from_response` of `triggered/triggers/ai.py`. An `.ok`
result is the returned `(parsed_json, error_message)` tuple; an `.error`
result is a raised exception carrying `str(e)` — which happens exactly when
the response contains a fence, the fenced-block pattern did not match, and
the groupless fallback pattern did: `json_match.group(1)` then raises
`IndexError("no such group")`. When the fenced-block pattern matched, the
response necessarily contains a fence, so that branch always reads group 1
of that match. Only `json.JSONDecodeError` is caught by the source's
`except` clauses, matching the `none` results of `jsonLoads`. -/
def extract_json_from_response (response : PyStr) : Except PyStr (Option JValue × Option PyStr) :=
  match jsonLoads response with
  | some v => Except.ok (some v, none)
  | none =>
    match reMarkdownSearch response with
    | some g1 =>
      match jsonLoads (reSubWs g1) with
      | some v => Except.ok (some v, none)
      | none => Except.ok (none, some (pyn "Failed to parse extracted JSON: " ++ response))
    | none =>
      match reFallbackSearch response with
      | some g0 =>
        if containsFence response then Except.error (pyn "no such group")
        else
          match jsonLoads (reSubWs g0) with
          | some v => Except.ok (some v, none)
          | none => Except.ok (none, some (pyn "Failed to parse extracted JSON: " ++ response))
      | none => Except.ok (none, some (pyn "No valid JSON object found in response: " ++ response))

/-- Python truthiness of the returned `error` string: `if error:` is false
for `None` and for the empty string. -/
def errTruthy : Option PyStr → Bool
  | none => false
  | some s => !s.isEmpty

/-- Truthiness of a mantissa-is-zero number token: `0`, `-0`, `0.00`, `0e5`
and the like denote zero and are falsy; every other token denotes a nonzero
value. (Floating-point underflow of extreme exponents is not modelled; no
claim involves such tokens.) `NaN`/`Infinity` tokens contain non-zero-digit
characters and so correctly come out truthy. -/
def numTokZero (tok : List Nat) : Bool :=
  (tok.takeWhile (fun c => !(c == 0x65 || c == 0x45))).all
    (fun c => c == 0x30 || c == 0x2D || c == 0x2E)

/-- Python truthiness of a value produced by `json.loads`. -/
def pyTruthy : JValue → Bool
  | JValue.null => false
  | JValue.bool b => b
  | JValue.num tok => !(numTokZero tok)
  | JValue.str s => !s.isEmpty
  | JValue.arr l => !l.isEmpty
  | JValue.obj m => !m.isEmpty

/-- The decision data synthesised by `AITrigger.check` on a failure path:
`{"trigger": False, "reason": <message>}`. -/
def synthDecision (reason : PyStr) : JValue :=
  JValue.obj [(pyn "trigger", JValue.bool false), (pyn "reason", JValue.str reason)]

/-- Python `d.get(k, default)` on a decision's data dictionary. -/
def dataGet (d : JValue) (k : PyStr) (dflt : JValue) : JValue :=
  match d with
  | JValue.obj m => (dictFind m k).getD dflt
  | _ => dflt

/-- The `data` dictionary of the `TriggerContext` returned by
`AITrigger.check` for a given model response text: the extracted object when
it is a dict containing a `trigger` key, a synthesised
`{"trigger": False, "reason": ...}` otherwise. The surrounding
`except Exception` converts a raised exception `e` into the decision with
reason `"Error checking AI trigger: " + str(e)`. `check` never returns
`None` on these paths, so the decision data is always a dict. -/
def check_decision (response : PyStr) : JValue :=
  match extract_json_from_response response with
  | Except.error e => synthDecision (pyn "Error checking AI trigger: " ++ e)
  | Except.ok (o, err) =>
    if errTruthy err then
      synthDecision (pyn "Error parsing response: " ++ err.getD [])
    else
      match o with
      | some (JValue.obj m) =>
        if (dictFind m (pyn "trigger")).isSome then JValue.obj m
        else synthDecision (pyn "Model response is not a valid JSON or missing 'trigger' field")
      | _ => synthDecision (pyn "Model response is not a valid JSON or missing 'trigger' field")

/-- One iteration of `AITrigger.watch` for a given model response:
`triggered = ctx.data.get("trigger", False)`, and `queue_put(ctx)` runs iff
`if triggered:` takes the truthy branch. `some ctx` means the context was
enqueued; `none` means the iteration only logged the reason. -/
def watch_iteration (response : PyStr) : Option JValue :=
  let ctx := check_decision response
  if pyTruthy (dataGet ctx (pyn "trigger") (JValue.bool false)) then some ctx else none

/-- One hexadecimal digit character of `'\u%04x' % n` (lowercase). -/
def hexDigitChar (m : Nat) : Nat := if m < 10 then 0x30 + m else 0x57 + m

/-- The four hex digit characters of `'\u%04x' % n`. -/
def hex4chars (n : Nat) : List Nat :=
  [hexDigitChar (n / 4096 % 16), hexDigitChar (n / 256 % 16),
   hexDigitChar (n / 16 % 16), hexDigitChar (n % 16)]

/-- One character as escaped by `json.dumps` (default `ensure_ascii=True`,
CPython's `py_encode_basestring_ascii`): the short escapes of `ESCAPE_DCT`,
printable ASCII verbatim, `\uXXXX` for everything else, with a surrogate
pair for code points beyond the Basic Multilingual Plane. -/
def escChar (c : Nat) : List Nat :=
  if c = 0x22 then [0x5C, 0x22]
  else if c = 0x5C then [0x5C, 0x5C]
  else if c = 0x08 then [0x5C, 0x62]
  else if c = 0x09 then [0x5C, 0x74]
  else if c = 0x0A then [0x5C, 0x6E]
  else if c = 0x0C then [0x5C, 0x66]
  else if c = 0x0D then [0x5C, 0x72]
  else if 0x20 ≤ c ∧ c ≤ 0x7E then [c]
  else if c < 0x10000 then 0x5C :: 0x75 :: hex4chars c
  else
    (0x5C :: 0x75 :: hex4chars (0xD800 + (c - 0x10000) / 0x400)) ++
      (0x5C :: 0x75 :: hex4chars (0xDC00 + (c - 0x10000) % 0x400))

/-- A whole string as escaped by `json.dumps`. -/
def pyJsonEscape : PyStr → PyStr
  | [] => []
  | c :: rest => escChar c ++ pyJsonEscape rest

/-- The result of `json.dumps` on the dictionary with keys `trigger` and
`reason` holding `b` and `s`, with the default separators
and key order (Python dicts preserve insertion order): the serialised form
of the decision dictionaries the round-trip property quantifies over. -/
def json_dumps_decision (b : Bool) (s : PyStr) : PyStr :=
  pyn "\x7b\"trigger\": " ++ (if b then pyn "true" else pyn "false") ++
    pyn ", \"reason\": \"" ++ pyJsonEscape s ++ pyn "\"\x7d"

/-- The parsed form of `{"trigger": b, "reason": s}`. -/
def decisionJ (b : Bool) (s : PyStr) : JValue :=
  JValue.obj [(pyn "trigger", JValue.bool b), (pyn "reason", JValue.str s)]

/-- A type registry (`TRIGGER_REGISTRY` / `ACTION_REGISTRY`): a Python dict
from type name to class, modelled as a map to an abstract class identifier. -/
def Registry : Type := String → Option Nat

/-- Registration `register_trigger(name, cls)` (decorator or direct call): the dict entry
under `name` is overwritten unconditionally. -/
def register_trigger (name : String) (cls : Nat) (reg : Registry) : Registry :=
  fun k => if k = name then some cls else reg k

/-- Lookup `get_trigger(name)`: raises `ValueError` when the name is absent. -/
def get_trigger (reg : Registry) (name : String) : Except String Nat :=
  match reg name with
  | some c => Except.ok c
  | none => Except.error ("Unknown trigger type: " ++ name)

/-- Registration `register_action(name, cls)`, identical in structure to
`register_trigger` over its own dict. -/
def register_action (name : String) (cls : Nat) (reg : Registry) : Registry :=
  fun k => if k = name then some cls else reg k

/-- Lookup `get_action(name)`: raises `ValueError` when the name is absent. -/
def get_action (reg : Registry) (name : String) : Except String Nat :=
  match reg name with
  | some c => Except.ok c
  | none => Except.error ("Unknown action type: " ++ name)

/-- A sequence of registrations applied in program order to an initially
empty registry. -/
def applyRegistrations (regs : List (String × Nat)) : Registry :=
  regs.foldl (fun r p => register_trigger p.1 p.2 r) (fun _ => none)

/-- Python truthiness of a class object: classes define no `__bool__` or
`__len__`, so `not trigger_cls` is always false. -/
def classTruthy (_cls : Nat) : Bool := true

/-- The method `TriggerDefinition.validate`: resolve the type through the registry
(`get_trigger` raises for unknown names), then the dead `if not trigger_cls`
guard, then the class's `validate_config` on the stored config —
abstracted as `validateOf cls`, since which pydantic model runs depends on
the resolved class. `.error` is the `ValueError` escaping `validate()`. -/
def validateTriggerDef (reg : Registry) (ty : String)
    (validateOf : Nat → Bool × Option String) : Except String (Bool × Option String) :=
  match get_trigger reg ty with
  | Except.error e => Except.error e
  | Except.ok cls =>
    if !(classTruthy cls) then Except.ok (false, some ("Unknown trigger type: " ++ ty))
    else Except.ok (validateOf cls)

/-- The method `ActionDefinition.validate`, identical in structure over the action
registry. -/
def validateActionDef (reg : Registry) (ty : String)
    (validateOf : Nat → Bool × Option String) : Except String (Bool × Option String) :=
  match get_action reg ty with
  | Except.error e => Except.error e
  | Except.ok cls =>
    if !(classTruthy cls) then Except.ok (false, some ("Unknown action type: " ++ ty))
    else Except.ok (validateOf cls)

/-- A Python value appearing in a trigger/action config dict (the shapes the
validation claims exercise). -/
inductive PyVal where
  | none_
  | bool (b : Bool)
  | int (n : Int)
  | str (s : PyStr)
deriving DecidableEq

/-- Assoc lookup in a config dict. -/
def cfgFind (m : List (PyStr × PyVal)) (k : PyStr) : Option PyVal :=
  match m with
  | [] => none
  | (k0, v0) :: rest => if k0 = k then some v0 else cfgFind rest k

/-- Is the code point ASCII whitespace (what pydantic's string-to-int
conversion trims)? -/
def isAsciiWs (c : Nat) : Bool := c = 0x20 || (0x09 ≤ c && c ≤ 0x0D)

/-- Strip leading characters satisfying the whitespace test. -/
def dropWsL : List Nat → List Nat
  | [] => []
  | c :: rest => if isAsciiWs c then dropWsL rest else c :: rest

/-- All decimal digits, nonempty. -/
def allDigits (s : List Nat) : Bool :=
  !s.isEmpty && s.all (fun c => 0x30 ≤ c && c ≤ 0x39)

/-- Value of a nonempty run of decimal digit characters. -/
def digitsVal (s : List Nat) : Nat :=
  s.foldl (fun acc c => acc * 10 + (c - 0x30)) 0

/-- pydantic v2 lax conversion of a string to an `int` field: surrounding
whitespace is trimmed, an optional sign is followed by decimal digits.
(Float-shaped strings are not modelled; no claim depends on them.) -/
def strToIntLax (s : PyStr) : Option Int :=
  match (dropWsL (dropWsL s.reverse).reverse : List Nat) with
  | [] => none
  | c :: rest =>
    if c = 0x2D then if allDigits rest then some (-(digitsVal rest : Int)) else none
    else if c = 0x2B then if allDigits rest then some (digitsVal rest : Int) else none
    else if allDigits (c :: rest) then some (digitsVal (c :: rest) : Int) else none

/-- pydantic v2 lax validation of a value against an `int` field: `int`
passes, `bool` is explicitly rejected, numeric strings are coerced. -/
def intFieldOk (v : PyVal) : Bool :=
  match v with
  | PyVal.int _ => true
  | PyVal.bool _ => false
  | PyVal.str s => (strToIntLax s).isSome
  | PyVal.none_ => false

/-- pydantic v2 lax validation of a value against a `str` field: only `str`
passes (numbers are not coerced to strings). -/
def strFieldOk (v : PyVal) : Bool :=
  match v with
  | PyVal.str _ => true
  | _ => false

/-- The classmethod `TestTrigger.validate_config` of `triggered/test_trigger.py` (through
`Trigger.validate_config` of `core.py`): pydantic v2 lax validation of
`TestTriggerConfig`, whose fields are `name: str = ""` (from `BaseConfig`),
`interval: int` (required), `max_retries: int = 3`. The prose of pydantic's
`ValidationError` string is abstracted to the list of offending field names
(the claims inspect only validity and whether the message names a field);
extra keys are ignored (pydantic's default). -/
def testTrigger_validate_config (cfg : List (PyStr × PyVal)) :
    Bool × Option (List PyStr) :=
  let nameBad :=
    match cfgFind cfg (pyn "name") with
    | some v => !(strFieldOk v)
    | none => false
  let intervalBad :=
    match cfgFind cfg (pyn "interval") with
    | some v => !(intFieldOk v)
    | none => true
  let retriesBad :=
    match cfgFind cfg (pyn "max_retries") with
    | some v => !(intFieldOk v)
    | none => false
  let errs :=
    (if nameBad then [pyn "name"] else []) ++
      (if intervalBad then [pyn "interval"] else []) ++
      (if retriesBad then [pyn "max_retries"] else [])
  if errs.isEmpty then (true, none) else (false, some errs)

/-- A deserialised `TriggerAction` as the scheduler handles it: its identity
plus an abstract payload standing for the remaining fields (auth key,
trigger/action definitions, params). -/
structure TriggerActionRec where
  id : String
  payload : Nat
deriving DecidableEq

/-- The method `RuntimeManager._load_from_disk`. A directory is modelled as the list of
per-file outcomes of `json.loads` + `TriggerAction.model_validate`: `none`
is a file whose load raised (logged and skipped). Files from the primary
`TRIGGER_ACTIONS_DIR` are appended unconditionally; a file from the examples
directory is appended only when no already-loaded definition has its id. -/
def loadFromDisk (primary examples : List (Option TriggerActionRec)) :
    List TriggerActionRec :=
  let l1 := primary.foldl
    (fun acc f => match f with
      | some ta => acc ++ [ta]
      | none => acc) []
  examples.foldl
    (fun acc f => match f with
      | some ta => if acc.any (fun ex => ex.id = ta.id) then acc else acc ++ [ta]
      | none => acc) l1

/-- The part of a `TriggerContext` the dispatcher reads. -/
structure EventCtx where
  fired_at : String
deriving DecidableEq

/-- One entry of `RECENT_EVENTS`: `{"id": ta.id, "time": ctx.fired_at}`. -/
structure AuditRec where
  id : String
  time : String
deriving DecidableEq

/-- The audit record the dispatcher appends for a dequeued event. -/
def auditOf (e : TriggerActionRec × EventCtx) : AuditRec :=
  { id := e.1.id, time := e.2.fired_at }

/-- The externally visible effects of a dispatcher run: the `RECENT_EVENTS`
log, the successful `execute_action.apply_async` submissions (with the task
id each returned) in submission order, and the events whose submission
raised, with the logged error text. -/
structure DispatchTrace where
  recent : List AuditRec
  submitted : List ((TriggerActionRec × EventCtx) × String)
  dropped : List ((TriggerActionRec × EventCtx) × String)
deriving DecidableEq

/-- One iteration of `RuntimeManager._dispatcher`: append the audit record,
then attempt exactly one submission; `try/except` turns a raised submission
error into a log entry and the loop moves on. -/
def dispatchIter (submit : TriggerActionRec × EventCtx → Except String String)
    (tr : DispatchTrace) (e : TriggerActionRec × EventCtx) : DispatchTrace :=
  let tr1 := { tr with recent := tr.recent ++ [auditOf e] }
  match submit e with
  | Except.ok tid => { tr1 with submitted := tr1.submitted ++ [(e, tid)] }
  | Except.error msg => { tr1 with dropped := tr1.dropped ++ [(e, msg)] }

/-- The loop of `RuntimeManager._dispatcher` over the contents of the shared
`asyncio.Queue`: the single consumer pops events in FIFO order, so a run of
the `while True` loop over a queue holding `queue` is the left fold of its
iterations. -/
def dispatcherRun (submit : TriggerActionRec × EventCtx → Except String String)
    (queue : List (TriggerActionRec × EventCtx)) : DispatchTrace :=
  queue.foldl (dispatchIter submit) { recent := [], submitted := [], dropped := [] }

/-- A Unicode scalar value: the code points a decoded model response can
contain (Python strings reaching `json.dumps`/`extract_json_from_response`
come from UTF-8 decoded API payloads, which exclude surrogates). -/
def validScalar (c : Nat) : Prop := c < 0x110000 ∧ ¬(0xD800 ≤ c ∧ c ≤ 0xDFFF)

instance (c : Nat) : Decidable (validScalar c) := by
  unfold validScalar; infer_instance

/-- The submissions a dispatcher run performs for a queue segment, in
order: the events whose `apply_async` returns, each with its task id. -/
def submittedOf (submit : TriggerActionRec × EventCtx → Except String String)
    (q : List (TriggerActionRec × EventCtx)) :
    List ((TriggerActionRec × EventCtx) × String) :=
  q.filterMap (fun e =>
    match submit e with
    | Except.ok tid => some (e, tid)
    | Except.error _ => none)

/-- The events of a queue segment whose submission raises, with the logged
error, in order. -/
def droppedOf (submit : TriggerActionRec × EventCtx → Except String String)
    (q : List (TriggerActionRec × EventCtx)) :
    List ((TriggerActionRec × EventCtx) × String) :=
  q.filterMap (fun e =>
    match submit e with
    | Except.ok _ => none
    | Except.error msg => some (e, msg))

/-! Helper lemmas -/

/-- Registry folding: the dict entry under a name after a sequence of
registrations is the value of the last registration under that name. -/
theorem applyRegistrations_lookup (regs : List (String × Nat)) (T : String) :
    applyRegistrations regs T =
      ((regs.filter (fun p => p.1 == T)).getLast?).map Prod.snd := by
  induction regs using List.reverseRecOn with
  | nil => rfl
  | append_singleton l p ih =>
    unfold applyRegistrations at ih ⊢
    rw [List.foldl_append, List.foldl_cons, List.foldl_nil]
    unfold register_trigger
    by_cases hp : p.1 = T
    · have hfil : List.filter (fun q => q.1 == T) (l ++ [p]) =
          List.filter (fun q => q.1 == T) l ++ [p] := by
        rw [List.filter_append]; simp [hp]
      rw [hfil, if_pos hp.symm, List.getLast?_concat]
      rfl
    · have hfil : List.filter (fun q => q.1 == T) (l ++ [p]) =
          List.filter (fun q => q.1 == T) l := by
        rw [List.filter_append]; simp [hp]
      rw [hfil, if_neg (fun hq => hp hq.symm)]
      exact ih

/-- The unconditional-append fold over the primary directory's load results
keeps exactly the successfully parsed definitions, in order. -/
theorem loadFold_primary (l : List (Option TriggerActionRec)) :
    ∀ acc : List TriggerActionRec,
      l.foldl (fun acc f => match f with
        | some ta => acc ++ [ta]
        | none => acc) acc = acc ++ l.filterMap id := by
  induction l with
  | nil => intro acc; simp
  | cons f l ih =>
    intro f_acc
    cases f <;> simp [List.foldl_cons, ih, List.filterMap_cons]

/-- The examples-directory fold preserves distinctness of ids: an incoming
definition is dropped whenever any already-accumulated one has its id. -/
theorem examplesFold_nodup (ex : List (Option TriggerActionRec)) :
    ∀ acc : List TriggerActionRec, (acc.map TriggerActionRec.id).Nodup →
      ((ex.foldl (fun acc f => match f with
        | some ta => if acc.any (fun e => e.id = ta.id) then acc else acc ++ [ta]
        | none => acc) acc).map TriggerActionRec.id).Nodup := by
  induction ex with
  | nil => intro acc h; simpa using h
  | cons f ex ih =>
    intro acc h
    cases f with
    | none => exact ih acc h
    | some ta =>
      simp only [List.foldl_cons]
      by_cases hdup : acc.any (fun e => e.id = ta.id)
      · rw [if_pos hdup]; exact ih acc h
      · rw [if_neg hdup]
        refine ih (acc ++ [ta]) ?_
        rw [List.map_append, List.map_singleton]
        refine List.Nodup.append h (List.nodup_singleton _) ?_
        intro x hx hy
        simp only [List.mem_singleton] at hy
        subst hy
        simp only [List.mem_map] at hx
        obtain ⟨e, he, heq⟩ := hx
        exact hdup (List.any_eq_true.mpr ⟨e, he, by simp [heq]⟩)

/-- Unrolling the dispatcher fold from any starting trace. -/
theorem dispatcherFold_spec (submit : TriggerActionRec × EventCtx → Except String String)
    (q : List (TriggerActionRec × EventCtx)) :
    ∀ tr : DispatchTrace,
      q.foldl (dispatchIter submit) tr =
        { recent := tr.recent ++ q.map auditOf,
          submitted := tr.submitted ++ submittedOf submit q,
          dropped := tr.dropped ++ droppedOf submit q } := by
  induction q with
  | nil => intro tr; simp [submittedOf, droppedOf]
  | cons e q ih =>
    intro tr
    rw [List.foldl_cons, ih]
    unfold dispatchIter
    cases hs : submit e <;>
      simp [submittedOf, droppedOf, hs, List.filterMap_cons, List.append_assoc]

/-- A dispatcher run audits every dequeued event, submits exactly the events
whose submission succeeds, and drops exactly the events whose submission
raises, each in dequeue order. -/
theorem dispatcherRun_spec (submit : TriggerActionRec × EventCtx → Except String String)
    (q : List (TriggerActionRec × EventCtx)) :
    dispatcherRun submit q =
      { recent := q.map auditOf,
        submitted := submittedOf submit q,
        dropped := droppedOf submit q } := by
  unfold dispatcherRun
  rw [dispatcherFold_spec]
  simp

/-- Hex digit characters decode back to their value. -/
theorem hexDigitVal_hexDigitChar : ∀ m, m < 16 → hexDigitVal (hexDigitChar m) = some m := by
  decide

/-- A 4-digit hex rendering of `n < 0x10000` scans back to `n`. -/
theorem hex4val_hex4chars (n : Nat) (h : n < 0x10000) :
    hex4val (hexDigitChar (n / 4096 % 16)) (hexDigitChar (n / 256 % 16))
      (hexDigitChar (n / 16 % 16)) (hexDigitChar (n % 16)) = some n := by
  have d1 := hexDigitVal_hexDigitChar (n / 4096 % 16) (Nat.mod_lt _ (by norm_num))
  have d2 := hexDigitVal_hexDigitChar (n / 256 % 16) (Nat.mod_lt _ (by norm_num))
  have d3 := hexDigitVal_hexDigitChar (n / 16 % 16) (Nat.mod_lt _ (by norm_num))
  have d4 := hexDigitVal_hexDigitChar (n % 16) (Nat.mod_lt _ (by norm_num))
  simp only [hex4val, d1, d2, d3, d4, Option.some.injEq]
  omega

/-- Every escaped character is at least one character long. -/
theorem one_le_escChar_length (c : Nat) : 1 ≤ (escChar c).length := by
  unfold escChar
  split_ifs <;> simp [hex4chars]

/-- Escaping never shortens a string. -/
theorem length_le_escLen (s : PyStr) : s.length ≤ (pyJsonEscape s).length := by
  induction s with
  | nil => simp [pyJsonEscape]
  | cons c s ih =>
    have := one_le_escChar_length c
    simp only [pyJsonEscape, List.length_append, List.length_cons]
    omega

/-- The scanner combines an escaped surrogate pair back into one code
point and continues after it. -/
theorem scanStringBody_surrogate_step (f hi lo : Nat) (tail : List Nat)
    (hhi : 0xD800 ≤ hi ∧ hi ≤ 0xDBFF) (hlo : 0xDC00 ≤ lo ∧ lo ≤ 0xDFFF) :
    scanStringBody (f + 1)
        (0x5C :: 0x75 :: (hex4chars hi ++ (0x5C :: 0x75 :: (hex4chars lo ++ tail)))) =
      (scanStringBody f tail).map
        (fun p => ((0x10000 + (hi - 0xD800) * 0x400 + (lo - 0xDC00)) :: p.1, p.2)) := by
  have hhi16 : hi < 0x10000 := by omega
  have hlo16 : lo < 0x10000 := by omega
  simp only [hex4chars, List.cons_append, List.nil_append]
  simp only [scanStringBody]
  simp [lowSurrEsc, hex4val_hex4chars hi hhi16, hex4val_hex4chars lo hlo16, hhi, hlo]

/-- Scanning the `json.dumps` escape of a string of Unicode scalar values,
followed by the closing quote, recovers the string exactly (CPython's
`py_scanstring` inverts `py_encode_basestring_ascii`). -/
theorem scanStringBody_escape :
    ∀ (s : PyStr) (f : Nat) (rest : List Nat), (∀ c ∈ s, validScalar c) → s.length < f →
      scanStringBody f (pyJsonEscape s ++ (0x22 :: rest)) = some (s, rest) := by
  intro s
  induction s with
  | nil =>
    intro f rest _ hf
    obtain ⟨f', rfl⟩ : ∃ f', f = f' + 1 := ⟨f - 1, by omega⟩
    simp [pyJsonEscape, scanStringBody]
  | cons c s ih =>
    intro f rest hv hf
    obtain ⟨f', rfl⟩ : ∃ f', f = f' + 1 := ⟨f - 1, by omega⟩
    have hvc : validScalar c := hv c (List.mem_cons_self c s)
    have hvs : ∀ x ∈ s, validScalar x := fun x hx => hv x (List.mem_cons_of_mem _ hx)
    have hf' : s.length < f' := by
      simp only [List.length_cons] at hf
      omega
    obtain ⟨hlt, hsur⟩ := hvc
    have ihr := ih f' rest hvs hf'
    simp only [pyJsonEscape, List.append_assoc]
    by_cases h22 : c = 0x22
    · subst h22
      rw [show escChar 0x22 = [0x5C, 0x22] from rfl]
      simp [scanStringBody, shortEsc, ihr]
    · by_cases h5c : c = 0x5C
      · subst h5c
        rw [show escChar 0x5C = [0x5C, 0x5C] from rfl]
        simp [scanStringBody, shortEsc, ihr]
      · by_cases h08 : c = 0x08
        · subst h08
          rw [show escChar 0x08 = [0x5C, 0x62] from rfl]
          simp [scanStringBody, shortEsc, ihr]
        · by_cases h09 : c = 0x09
          · subst h09
            rw [show escChar 0x09 = [0x5C, 0x74] from rfl]
            simp [scanStringBody, shortEsc, ihr]
          · by_cases h0A : c = 0x0A
            · subst h0A
              rw [show escChar 0x0A = [0x5C, 0x6E] from rfl]
              simp [scanStringBody, shortEsc, ihr]
            · by_cases h0C : c = 0x0C
              · subst h0C
                rw [show escChar 0x0C = [0x5C, 0x66] from rfl]
                simp [scanStringBody, shortEsc, ihr]
              · by_cases h0D : c = 0x0D
                · subst h0D
                  rw [show escChar 0x0D = [0x5C, 0x72] from rfl]
                  simp [scanStringBody, shortEsc, ihr]
                · by_cases hpr : 0x20 ≤ c ∧ c ≤ 0x7E
                  · have he : escChar c = [c] := by
                      unfold escChar
                      split_ifs <;> first | rfl | (exfalso; omega)
                    rw [he]
                    simp [scanStringBody, h22, h5c,
                      (show ¬c < 0x20 from by omega), ihr]
                  · by_cases hbmp : c < 0x10000
                    · have he : escChar c = 0x5C :: 0x75 :: hex4chars c := by
                        unfold escChar
                        split_ifs <;> first | rfl | (exfalso; omega)
                      rw [he]
                      simp only [hex4chars, List.cons_append, List.nil_append]
                      simp [scanStringBody, hex4val_hex4chars c hbmp, ihr,
                        (show ¬(0xD800 ≤ c ∧ c ≤ 0xDBFF) from by omega)]
                    · have he : escChar c =
                          (0x5C :: 0x75 :: hex4chars (0xD800 + (c - 0x10000) / 0x400)) ++
                            (0x5C :: 0x75 :: hex4chars (0xDC00 + (c - 0x10000) % 0x400)) := by
                        unfold escChar
                        split_ifs <;> first | rfl | (exfalso; omega)
                      rw [he]
                      simp only [List.cons_append, List.nil_append, List.append_assoc]
                      rw [scanStringBody_surrogate_step f' _ _ _ (by omega) (by omega), ihr]
                      simp only [Option.map_some', Option.some.injEq, Prod.mk.injEq,
                        List.cons.injEq]
                      exact ⟨⟨by omega, trivial⟩, trivial⟩

/-- The fueled entry point `scanString` on an escaped string body. -/
theorem scanString_escape (s : PyStr) (hv : ∀ c ∈ s, validScalar c) (rest : List Nat) :
    scanString (pyJsonEscape s ++ (0x22 :: rest)) = some (s, rest) := by
  unfold scanString
  apply scanStringBody_escape s _ rest hv
  have h := length_le_escLen s
  simp only [List.length_append, List.length_cons]
  omega

/-- The scanner reads the serialised decision dictionary back to its parsed
form, consuming the whole input. -/
theorem scanJ_dumps (f : Nat) (b : Bool) (s : PyStr) (hv : ∀ c ∈ s, validScalar c) :
    scanJ (f + 5) ScanMode.v (json_dumps_decision b s) = some (decisionJ b s, []) := by
  have htrig : ∀ r : List Nat,
      scanString (116 :: 114 :: 105 :: 103 :: 103 :: 101 :: 114 :: (34 :: r)) =
        some (pyn "trigger", r) :=
    fun r => scanString_escape (pyn "trigger") (by decide) r
  have hreas : ∀ r : List Nat,
      scanString (114 :: 101 :: 97 :: 115 :: 111 :: 110 :: (34 :: r)) =
        some (pyn "reason", r) :=
    fun r => scanString_escape (pyn "reason") (by decide) r
  have hesc := scanString_escape s hv [0x7D]
  have hptrig : pyn "trigger" = [116, 114, 105, 103, 103, 101, 114] := rfl
  have hpreas : pyn "reason" = [114, 101, 97, 115, 111, 110] := rfl
  have hpnull : pyn "null" = [110, 117, 108, 108] := rfl
  have hptrue : pyn "true" = [116, 114, 117, 101] := rfl
  have hpfalse : pyn "false" = [102, 97, 108, 115, 101] := rfl
  have hpnan : pyn "NaN" = [78, 97, 78] := rfl
  have hpinf : pyn "Infinity" = [73, 110, 102, 105, 110, 105, 116, 121] := rfl
  have hpninf : pyn "-Infinity" = [45, 73, 110, 102, 105, 110, 105, 116, 121] := rfl
  cases b
  · have hd : json_dumps_decision false s =
        123 :: 34 :: 116 :: 114 :: 105 :: 103 :: 103 :: 101 :: 114 :: 34 :: 58 :: 32 ::
          102 :: 97 :: 108 :: 115 :: 101 :: 44 :: 32 :: 34 :: 114 :: 101 :: 97 :: 115 ::
          111 :: 110 :: 34 :: 58 :: 32 :: 34 :: (pyJsonEscape s ++ (34 :: 125 :: [])) := rfl
    rw [hd]
    simp [scanJ, jsonSkipWs, isJsonWs, leadsWith, hptrig, hpreas, hpnull, hptrue, hpfalse,
      hpnan, hpinf, hpninf, numTok, numIntPart, htrig, hreas, hesc, dictInsert, decisionJ]
  · have hd : json_dumps_decision true s =
        123 :: 34 :: 116 :: 114 :: 105 :: 103 :: 103 :: 101 :: 114 :: 34 :: 58 :: 32 ::
          116 :: 114 :: 117 :: 101 :: 44 :: 32 :: 34 :: 114 :: 101 :: 97 :: 115 ::
          111 :: 110 :: 34 :: 58 :: 32 :: 34 :: (pyJsonEscape s ++ (34 :: 125 :: [])) := rfl
    rw [hd]
    simp [scanJ, jsonSkipWs, isJsonWs, leadsWith, hptrig, hpreas, hpnull, hptrue, hpfalse,
      hpnan, hpinf, hpninf, numTok, numIntPart, htrig, hreas, hesc, dictInsert, decisionJ]

/-- Parsing the serialised decision dictionary with `json.loads` succeeds
(sufficient fuel is
always available, and no input remains). -/
theorem jsonLoads_dumps (b : Bool) (s : PyStr) (hv : ∀ c ∈ s, validScalar c) :
    jsonLoads (json_dumps_decision b s) = some (decisionJ b s) := by
  unfold jsonLoads
  have e1 : (pyn "\x7b\"trigger\": ").length = 12 := rfl
  have e2 : (pyn "true").length = 4 := rfl
  have e2' : (pyn "false").length = 5 := rfl
  have e3 : (pyn ", \"reason\": \"").length = 13 := rfl
  have e4 : (pyn "\"\x7d").length = 2 := rfl
  have h4 : 4 ≤ (json_dumps_decision b s).length := by
    cases b <;>
      simp only [json_dumps_decision, List.length_append, Bool.false_eq_true, if_false,
        if_true, e1, e2, e2', e3, e4] <;>
      omega
  obtain ⟨f, hf⟩ : ∃ f, (json_dumps_decision b s).length + 1 = f + 5 :=
    ⟨(json_dumps_decision b s).length - 4, by omega⟩
  rw [hf, scanJ_dumps f b s hv]
  rfl

/-! Claim theorems -/

/-- Claim C1 (counterexample): the decision parsed from the model text
`{"trigger": "yes", "reason": "r"}` carries the non-boolean truthy value
`"yes"` in its `trigger` field, and the watch loop nevertheless enqueues the
context — refuting that only the strict boolean `true` fires. -/
theorem ai_watch_truthy_string_fires :
    watch_iteration (pyn "\x7b\"trigger\": \"yes\", \"reason\": \"r\"\x7d") =
      some (JValue.obj [(pyn "trigger", JValue.str (pyn "yes")),
        (pyn "reason", JValue.str (pyn "r"))]) ∧
    dataGet (check_decision (pyn "\x7b\"trigger\": \"yes\", \"reason\": \"r\"\x7d"))
        (pyn "trigger") (JValue.bool false) = JValue.str (pyn "yes") ∧
    JValue.str (pyn "yes") ≠ JValue.bool true :=
  ⟨rfl, rfl, fun h => JValue.noConfusion h⟩

/-- Claim C1 (amended): one iteration of `AITrigger.watch` enqueues the
context produced by `check` exactly when the decision's `trigger` value is
truthy under Python semantics — `if triggered:` coerces, so truthy
non-booleans fire too. -/
theorem ai_watch_fires_iff_truthy (r : PyStr) :
    watch_iteration r =
      if pyTruthy (dataGet (check_decision r) (pyn "trigger") (JValue.bool false)) then
        some (check_decision r)
      else none := rfl

/-- Claim C2 (code bug, evaluated at the failing input): on the response
consisting of a fence followed by an empty JSON object, the whole-response
parse fails, the fenced-block pattern does not match (no closing fence), the
fallback pattern does, and the response contains a fence — so
`json_match.group(1)` raises `IndexError("no such group")` out of
`extract_json_from_response`, contradicting the claim that extraction never
raises. The `except Exception` of `check` still converts this into a
`trigger=false` decision. -/
theorem extract_raises_on_fence_with_fallback_match :
    extract_json_from_response (pyn "```\x7b\x7d") = Except.error (pyn "no such group") ∧
    check_decision (pyn "```\x7b\x7d") =
      synthDecision (pyn "Error checking AI trigger: no such group") :=
  ⟨rfl, rfl⟩

/-- Claim C3 (counterexample): for the model text `"I cannot answer"` the
synthesised decision is `{"trigger": False, "reason": "Error parsing
response: No valid JSON object found in response: I cannot answer"}` — it
has no `raw` key at all, and its reason is not `"no valid JSON found"`,
refuting the claimed shape. -/
theorem ai_check_no_json_decision_shape :
    check_decision (pyn "I cannot answer") =
      synthDecision
        (pyn "Error parsing response: No valid JSON object found in response: I cannot answer") ∧
    dataGet (check_decision (pyn "I cannot answer")) (pyn "raw") JValue.null = JValue.null ∧
    dataGet (check_decision (pyn "I cannot answer")) (pyn "reason") JValue.null ≠
      JValue.str (pyn "no valid JSON found") := by
  refine ⟨rfl, rfl, fun h => ?_⟩
  have h2 : JValue.str
      (pyn "Error parsing response: No valid JSON object found in response: I cannot answer") =
      JValue.str (pyn "no valid JSON found") := h
  simp only [JValue.str.injEq] at h2
  exact absurd h2 (by decide)

/-- Claim C3 (amended): on total extraction failure — the response is not
JSON and neither pattern finds a brace-delimited candidate — `check`
synthesises exactly `{"trigger": False, "reason": "Error parsing response:
No valid JSON object found in response: " + <original text>}`, with no `raw`
field. -/
theorem ai_check_total_failure_reason (r : PyStr) (h1 : jsonLoads r = none)
    (h2 : reMarkdownSearch r = none) (h3 : reFallbackSearch r = none) :
    check_decision r =
      synthDecision
        (pyn "Error parsing response: No valid JSON object found in response: " ++ r) := by
  unfold check_decision extract_json_from_response
  rw [h1, h2, h3]
  have hne : errTruthy (some (pyn "No valid JSON object found in response: " ++ r)) = true := by
    simp [errTruthy, pyn, List.isEmpty]
  simp only [hne, if_pos rfl]
  rfl

/-- Claim C3 (witness): the amended synthesis shape at the concrete model
text `"I cannot answer"`. -/
theorem ai_check_total_failure_reason_witness :
    check_decision (pyn "I cannot answer") =
      synthDecision
        (pyn "Error parsing response: No valid JSON object found in response: " ++
          pyn "I cannot answer") :=
  ai_check_total_failure_reason (pyn "I cannot answer") rfl rfl rfl

/-- Claim C4: extraction is a left inverse of serialisation on decision
dictionaries `{"trigger": b, "reason": s}`: for every boolean `b` and every
string `s` of Unicode scalar values, `extract_json_from_response` applied to
`json.dumps` of the dictionary returns the dictionary unchanged (tier 1, the
whole-response parse, already succeeds). -/
theorem extract_roundtrip_decision (b : Bool) (s : PyStr) (hv : ∀ c ∈ s, validScalar c) :
    extract_json_from_response (json_dumps_decision b s) =
      Except.ok (some (decisionJ b s), none) := by
  unfold extract_json_from_response
  rw [jsonLoads_dumps b s hv]

/-- Claim C4 (witness): the round trip at `{"trigger": true, "reason": "ok"}`. -/
theorem extract_roundtrip_decision_witness :
    (∀ c ∈ pyn "ok", validScalar c) ∧
    extract_json_from_response (json_dumps_decision true (pyn "ok")) =
      Except.ok (some (decisionJ true (pyn "ok")), none) :=
  ⟨by decide, extract_roundtrip_decision true (pyn "ok") (by decide)⟩

/-- Claim C5 (code bug, evaluated at the failing input): with
`TestTriggerConfig`'s plain `int` fields, the valid config validates as
`(True, None)` — but so does the config with `interval` given as the string
`"60"`, because pydantic's lax mode coerces numeric strings to integers;
validation does not fail and no message mentioning `interval` is produced,
contrary to the claim and to the repository's own validation tests. -/
theorem testTrigger_validate_config_lax_coercion :
    testTrigger_validate_config
        [(pyn "name", PyVal.str (pyn "t")), (pyn "interval", PyVal.int 60),
          (pyn "max_retries", PyVal.int 5)] = (true, none) ∧
    testTrigger_validate_config
        [(pyn "name", PyVal.str (pyn "t")), (pyn "interval", PyVal.str (pyn "60")),
          (pyn "max_retries", PyVal.int 5)] = (true, none) :=
  ⟨rfl, rfl⟩

/-- Claim C6: after any sequence of registrations, resolving a name that was
registered at least once returns exactly the constructor of the most recent
registration under that name — each registration overwrites the previous
one. -/
theorem get_trigger_returns_last_registered (regs : List (String × Nat)) (T : String)
    (cls : Nat)
    (h : ((regs.filter (fun p => p.1 == T)).getLast?).map Prod.snd = some cls) :
    get_trigger (applyRegistrations regs) T = Except.ok cls := by
  unfold get_trigger
  rw [applyRegistrations_lookup, h]

/-- Claim C6 (witness): registering `ai` twice (with `cron` in between)
resolves `ai` to the second registration. -/
theorem get_trigger_returns_last_registered_witness :
    ((([("ai", 1), ("cron", 5), ("ai", 2)] : List (String × Nat)).filter
        (fun p => p.1 == "ai")).getLast?).map Prod.snd = some 2 ∧
    get_trigger (applyRegistrations [("ai", 1), ("cron", 5), ("ai", 2)]) "ai" = Except.ok 2 :=
  ⟨rfl, get_trigger_returns_last_registered [("ai", 1), ("cron", 5), ("ai", 2)] "ai" 2 rfl⟩

/-- Claim C7 (counterexample): two files in the primary trigger-actions
directory sharing the id `"a"` are both retained by `_load_from_disk` — the
first-seen-wins de-duplication only guards the examples directory, so ids
are not unique when the duplicate pair comes from the same source
directory. -/
theorem load_duplicate_ids_same_dir_retained :
    loadFromDisk [some ⟨"a", 0⟩, some ⟨"a", 1⟩] [] = [⟨"a", 0⟩, ⟨"a", 1⟩] ∧
    ¬ (List.map TriggerActionRec.id (loadFromDisk [some ⟨"a", 0⟩, some ⟨"a", 1⟩] [])).Nodup :=
  ⟨rfl, by decide⟩

/-- Claim C7 (amended): loaded ids are unique provided the primary directory
itself contains no duplicate ids; every examples-directory definition whose
id matches anything already loaded (from either directory) is skipped,
first-seen wins. -/
theorem load_ids_nodup_of_primary_nodup (primary examples : List (Option TriggerActionRec))
    (h : ((primary.filterMap id).map TriggerActionRec.id).Nodup) :
    ((loadFromDisk primary examples).map TriggerActionRec.id).Nodup := by
  unfold loadFromDisk
  rw [loadFold_primary]
  exact examplesFold_nodup examples _ (by simpa using h)

/-- Claim C7 (witness): a malformed primary file is skipped, an
examples-directory duplicate of a primary id is dropped, a duplicate within
the examples directory is dropped, and the result has pairwise distinct
ids. -/
theorem load_ids_nodup_of_primary_nodup_witness :
    ((([some ⟨"a", 0⟩, none, some ⟨"b", 1⟩] :
        List (Option TriggerActionRec)).filterMap id).map TriggerActionRec.id).Nodup ∧
    ((loadFromDisk [some ⟨"a", 0⟩, none, some ⟨"b", 1⟩]
        [some ⟨"a", 5⟩, some ⟨"c", 2⟩, some ⟨"c", 9⟩]).map TriggerActionRec.id).Nodup :=
  ⟨by decide, load_ids_nodup_of_primary_nodup [some ⟨"a", 0⟩, none, some ⟨"b", 1⟩]
    [some ⟨"a", 5⟩, some ⟨"c", 2⟩, some ⟨"c", 9⟩] (by decide)⟩

/-- Claim C8: when the submission of one dequeued event raises, the
dispatcher logs it as dropped exactly once (no retry appears anywhere in the
run), the events before and after it are submitted exactly as they would be
on their own, and every event of the queue — including all events after the
failing one — is still audited, so the loop keeps consuming. -/
theorem dispatcher_drops_failed_submission_and_continues
    (submit : TriggerActionRec × EventCtx → Except String String)
    (q1 : List (TriggerActionRec × EventCtx)) (e : TriggerActionRec × EventCtx)
    (q2 : List (TriggerActionRec × EventCtx)) (err : String)
    (h : submit e = Except.error err) :
    dispatcherRun submit (q1 ++ e :: q2) =
      { recent := (q1 ++ e :: q2).map auditOf,
        submitted := submittedOf submit q1 ++ submittedOf submit q2,
        dropped := droppedOf submit q1 ++ (e, err) :: droppedOf submit q2 } := by
  rw [dispatcherRun_spec]
  simp [submittedOf, droppedOf, List.filterMap_append, List.filterMap_cons, h]

/-- Claim C8 (witness): a concrete three-event queue whose middle submission
raises; the middle event is dropped with the logged error and the other two
are submitted. -/
theorem dispatcher_drops_failed_submission_and_continues_witness :
    (fun ev : TriggerActionRec × EventCtx =>
        if ev.1.id = "bad" then Except.error "boom" else Except.ok "tid")
      ((⟨"bad", 1⟩ : TriggerActionRec), (⟨"t1"⟩ : EventCtx)) = Except.error "boom" ∧
    dispatcherRun
      (fun ev : TriggerActionRec × EventCtx =>
        if ev.1.id = "bad" then Except.error "boom" else Except.ok "tid")
      (([(⟨"a", 0⟩, ⟨"t0"⟩)] ++ (⟨"bad", 1⟩, ⟨"t1"⟩) :: [(⟨"c", 2⟩, ⟨"t2"⟩)] :
          List (TriggerActionRec × EventCtx))) =
      { recent := (([(⟨"a", 0⟩, ⟨"t0"⟩)] ++ (⟨"bad", 1⟩, ⟨"t1"⟩) :: [(⟨"c", 2⟩, ⟨"t2"⟩)] :
          List (TriggerActionRec × EventCtx))).map auditOf,
        submitted :=
          submittedOf (fun ev => if ev.1.id = "bad" then Except.error "boom" else Except.ok "tid")
              [(⟨"a", 0⟩, ⟨"t0"⟩)] ++
            submittedOf (fun ev => if ev.1.id = "bad" then Except.error "boom" else Except.ok "tid")
              [(⟨"c", 2⟩, ⟨"t2"⟩)],
        dropped :=
          droppedOf (fun ev => if ev.1.id = "bad" then Except.error "boom" else Except.ok "tid")
              [(⟨"a", 0⟩, ⟨"t0"⟩)] ++
            ((⟨"bad", 1⟩, ⟨"t1"⟩), "boom") ::
              droppedOf (fun ev => if ev.1.id = "bad" then Except.error "boom" else Except.ok "tid")
                [(⟨"c", 2⟩, ⟨"t2"⟩)] } :=
  ⟨rfl, dispatcher_drops_failed_submission_and_continues _ [(⟨"a", 0⟩, ⟨"t0"⟩)]
    (⟨"bad", 1⟩, ⟨"t1"⟩) [(⟨"c", 2⟩, ⟨"t2"⟩)] "boom" rfl⟩

/-- Claim C9: dispatch preserves dequeue order — for any two successfully
submitted events, the one earlier in the queue appears earlier in the
submission sequence, with exactly the successful submissions of the
segments between them in between. -/
theorem dispatcher_preserves_fifo_order
    (submit : TriggerActionRec × EventCtx → Except String String)
    (q1 : List (TriggerActionRec × EventCtx)) (e1 : TriggerActionRec × EventCtx)
    (q2 : List (TriggerActionRec × EventCtx)) (e2 : TriggerActionRec × EventCtx)
    (q3 : List (TriggerActionRec × EventCtx)) (t1 t2 : String)
    (h1 : submit e1 = Except.ok t1) (h2 : submit e2 = Except.ok t2) :
    (dispatcherRun submit (q1 ++ e1 :: (q2 ++ e2 :: q3))).submitted =
      submittedOf submit q1 ++
        (e1, t1) :: (submittedOf submit q2 ++ (e2, t2) :: submittedOf submit q3) := by
  rw [dispatcherRun_spec]
  simp [submittedOf, List.filterMap_append, List.filterMap_cons, h1, h2]

/-- Claim C9 (witness): in a concrete queue with a failing first event, the
two successful events are submitted in their queue order. -/
theorem dispatcher_preserves_fifo_order_witness :
    (fun ev : TriggerActionRec × EventCtx =>
        if ev.1.id = "bad" then Except.error "boom" else Except.ok ev.1.id)
      ((⟨"e1", 0⟩ : TriggerActionRec), (⟨"x"⟩ : EventCtx)) = Except.ok "e1" ∧
    (dispatcherRun
        (fun ev : TriggerActionRec × EventCtx =>
          if ev.1.id = "bad" then Except.error "boom" else Except.ok ev.1.id)
        (([(⟨"bad", 9⟩, ⟨"t"⟩)] ++ (⟨"e1", 0⟩, ⟨"x"⟩) ::
          ([] ++ (⟨"e2", 1⟩, ⟨"y"⟩) :: []) : List (TriggerActionRec × EventCtx)))).submitted =
      submittedOf (fun ev => if ev.1.id = "bad" then Except.error "boom" else Except.ok ev.1.id)
          [(⟨"bad", 9⟩, ⟨"t"⟩)] ++
        ((⟨"e1", 0⟩, ⟨"x"⟩), "e1") ::
          (submittedOf (fun ev => if ev.1.id = "bad" then Except.error "boom" else Except.ok ev.1.id)
              [] ++
            ((⟨"e2", 1⟩, ⟨"y"⟩), "e2") ::
              submittedOf
                (fun ev => if ev.1.id = "bad" then Except.error "boom" else Except.ok ev.1.id) []) :=
  ⟨rfl, dispatcher_preserves_fifo_order _ [(⟨"bad", 9⟩, ⟨"t"⟩)] (⟨"e1", 0⟩, ⟨"x"⟩) []
    (⟨"e2", 1⟩, ⟨"y"⟩) [] "e1" "e2" rfl rfl⟩

/-- Claim C10: for a type name absent from the registry, `validate()` raises
the registry's `ValueError` (here the `.error` result) instead of returning
`(False, "Unknown trigger type: ...")`, for triggers and actions alike; and
every non-raising result of `TriggerDefinition.validate` comes from the
resolved class's `validate_config`, so the in-function unknown-type branch
is unreachable. -/
theorem validate_unknown_type_raises (regT regA : Registry) (tyT tyA : String)
    (vfT vfA : Nat → Bool × Option String) (hT : regT tyT = none) (hA : regA tyA = none) :
    validateTriggerDef regT tyT vfT = Except.error ("Unknown trigger type: " ++ tyT) ∧
    validateActionDef regA tyA vfA = Except.error ("Unknown action type: " ++ tyA) ∧
    (∀ (reg : Registry) (ty : String) (vf : Nat → Bool × Option String)
        (res : Bool × Option String),
      validateTriggerDef reg ty vf = Except.ok res → ∃ cls, reg ty = some cls ∧ res = vf cls) := by
  refine ⟨?_, ?_, ?_⟩
  · unfold validateTriggerDef get_trigger
    rw [hT]
  · unfold validateActionDef get_action
    rw [hA]
  · intro reg ty vf res h
    unfold validateTriggerDef get_trigger at h
    cases hr : reg ty with
    | none => rw [hr] at h; exact absurd h (by simp)
    | some cls =>
      rw [hr] at h
      simp [classTruthy] at h
      exact ⟨cls, rfl, h.symm⟩

/-- Claim C10 (witness): the empty registry raises for the type names
`"nope"` and `"nada"`. -/
theorem validate_unknown_type_raises_witness :
    validateTriggerDef (fun _ => none) "nope" (fun _ => (true, none)) =
      Except.error ("Unknown trigger type: " ++ "nope") ∧
    validateActionDef (fun _ => none) "nada" (fun _ => (true, none)) =
      Except.error ("Unknown action type: " ++ "nada") ∧
    (∀ (reg : Registry) (ty : String) (vf : Nat → Bool × Option String)
        (res : Bool × Option String),
      validateTriggerDef reg ty vf = Except.ok res → ∃ cls, reg ty = some cls ∧ res = vf cls) :=
  validate_unknown_type_raises (fun _ => none) (fun _ => none) "nope" "nada"
    (fun _ => (true, none)) (fun _ => (true, none)) rfl rfl
